import Mathlib

/-!
Verification of the CourseMap git-backed course store (`backend/main.py`).

The Python service is shallowly embedded: the durable state (global index
file, per-course `course.json` records, per-topic markdown files, created
directories) becomes an explicit `State` record, every route handler becomes
a pure function from a `State` (and a `GitEnv` describing the behaviour of
the external `git` tool) to a new `State` together with an
`Except ApiErr`-style outcome, and Python's IEEE-754 double arithmetic in
`calculate_progress` is modelled exactly by dyadic rationals with
round-to-nearest-even at 53 significant bits.
-/

namespace CourseMap

/-! ### Character-level helpers for `slugify`

Python's `str.lower`, `str.strip` and the regexes `[^\w\s-]` and `[-\s]+`
are modelled on the ASCII fragment (the only fragment exercised anywhere in
the repository): `\w` is `[a-zA-Z0-9_]`, `\s` is the ASCII whitespace set.
-/

/-- Python `str.lower` on one character (ASCII fragment):
codepoints 65–90 (`A`–`Z`) shift by 32, all others are fixed. -/
def pyLower (c : Char) : Char :=
  if 65 ≤ c.toNat ∧ c.toNat ≤ 90 then Char.ofNat (c.toNat + 32) else c

/-- Membership in Python's `\s` class (ASCII fragment). -/
def isSpaceChar (c : Char) : Bool :=
  c == ' ' || c == '\t' || c == '\n' || c == '\x0b' || c == '\x0c' || c == '\r'

/-- Membership in Python's `\w` class (ASCII fragment): letters, digits, underscore. -/
def isWordChar (c : Char) : Bool :=
  ('a' ≤ c && c ≤ 'z') || ('A' ≤ c && c ≤ 'Z') || ('0' ≤ c && c ≤ '9') || c == '_'

/-- A character matched by the class `[-\s]`. -/
def isDashSpace (c : Char) : Bool :=
  c == '-' || isSpaceChar c

/-- Python `str.strip`: drop whitespace from both ends. -/
def pyStrip (l : List Char) : List Char :=
  (((l.dropWhile (fun c => isSpaceChar c)).reverse).dropWhile (fun c => isSpaceChar c)).reverse

/-- `re.sub(r'[^\w\s-]', '', ·)`: keep only word characters, whitespace and hyphens. -/
def keepWordSpaceDash (l : List Char) : List Char :=
  l.filter (fun c => isWordChar c || isSpaceChar c || c == '-')

/-- `re.sub(r'[-\s]+', '-', ·)`: replace each maximal run of hyphens/whitespace by
one hyphen.  The boolean argument records whether the previous character was in
the `[-\s]` class (i.e. whether we are inside a run that already emitted `-`). -/
def collapseDashRuns : Bool → List Char → List Char
  | _, [] => []
  | inRun, c :: rest =>
    if isDashSpace c then
      (if inRun then [] else ['-']) ++ collapseDashRuns true rest
    else
      c :: collapseDashRuns false rest

/-- `slugify` from `main.py`:
lower-case, strip, remove `[^\w\s-]`, collapse `[-\s]+` runs to `-`. -/
def slugify (text : String) : String :=
  ⟨collapseDashRuns false (keepWordSpaceDash (pyStrip (text.data.map pyLower)))⟩

example : slugify "  Intro: Algorithms!  " = "intro-algorithms" := by decide
example : slugify "!! hello" = "-hello" := by decide
example : slugify "CS101-Algorithms" = "cs101-algorithms" := by decide

/-! ### IEEE-754 binary64 model for `calculate_progress`

`calculate_progress` computes `int(completed / total * 100)` on Python
floats.  `completed / total` is the correctly rounded (round to nearest,
ties to even, 53 significant bits) binary64 quotient, the multiplication by
the exact double `100.0` rounds the exact product the same way, and `int`
truncates toward zero (here: takes the floor of a nonnegative value).
Values are nonnegative dyadic rationals `m * 2 ^ e`, well inside the normal
range, so subnormals and overflow never arise and the model below is exact.
-/

/-- Bit length, via explicit fuel so the kernel can evaluate it:
`bitLenFuel fuel n = bitLen n` whenever `n ≤ fuel`. -/
def bitLenFuel : Nat → Nat → Nat
  | 0, _ => 0
  | _ + 1, 0 => 0
  | fuel + 1, n + 1 => bitLenFuel fuel ((n + 1) / 2) + 1

/-- Number of binary digits of `n`: for `n > 0`,
`2 ^ (bitLen n - 1) ≤ n < 2 ^ bitLen n`; `bitLen 0 = 0`. -/
def bitLen (n : Nat) : Nat := bitLenFuel n n

/-- Round `N / D` to the nearest integer, ties to even (`D > 0`). -/
def rne (N D : Nat) : Nat :=
  let q := N / D
  let r := N % D
  if 2 * r < D then q
  else if D < 2 * r then q + 1
  else if q % 2 = 0 then q else q + 1

/-- `⌊log₂ (c / t)⌋` for positive naturals `c`, `t`. -/
def qlog2 (c t : Nat) : Int :=
  let a := bitLen c
  let b := bitLen t
  let e : Int := (a : Int) - (b : Int)
  if (if 0 ≤ e then t * 2 ^ e.toNat ≤ c else t ≤ c * 2 ^ (-e).toNat) then e else e - 1

/-- `(c / t) * 2 ^ (52 - e)` as a pair `numerator / denominator` of naturals. -/
def scalePair (c t : Nat) (e : Int) : Nat × Nat :=
  if e ≤ 52 then (c * 2 ^ (52 - e).toNat, t) else (c, t * 2 ^ (e - 52).toNat)

/-- A nonnegative dyadic rational `m * 2 ^ e` (the value of a binary64 float). -/
structure Dyadic where
  m : Nat
  e : Int
  deriving DecidableEq, Repr

/-- The rational value of a dyadic. -/
def Dyadic.toRat (d : Dyadic) : ℚ := (d.m : ℚ) * (2 : ℚ) ^ d.e

/-- Binary64 rounding of the quotient `c / t` (round to nearest, ties to
even, 53-bit significand); `0` when `c = 0` (and a guard value for the
unreachable `t = 0`). -/
def flDiv (c t : Nat) : Dyadic :=
  if c = 0 ∨ t = 0 then ⟨0, 0⟩
  else
    let e := qlog2 c t
    let p := scalePair c t e
    ⟨rne p.1 p.2, e - 52⟩

/-- Binary64 rounding of an exact dyadic value `m * 2 ^ e` to a 53-bit
significand (round to nearest, ties to even). -/
def flDyadic (m : Nat) (e : Int) : Dyadic :=
  if bitLen m ≤ 53 then ⟨m, e⟩
  else ⟨rne m (2 ^ (bitLen m - 53)), e + ((bitLen m : Int) - 53)⟩

/-- Floor of a nonnegative dyadic value. -/
def dyadicFloor (d : Dyadic) : Nat :=
  if 0 ≤ d.e then d.m * 2 ^ d.e.toNat else d.m / 2 ^ (-d.e).toNat

/-- Python `int(completed / total * 100)` under binary64 arithmetic
(`total > 0`; `int` truncates toward zero, i.e. floors this nonnegative
value). -/
def pyProgressInt (completed total : Nat) : Nat :=
  let d1 := flDiv completed total
  let d2 := flDyadic (100 * d1.m) d1.e
  dyadicFloor d2

-- The famous double-rounding case: `int(29 / 100 * 100) = 28` in Python.
example : pyProgressInt 29 100 = 28 := by decide
example : pyProgressInt 29 100 ≠ 29 * 100 / 100 := by decide
example : pyProgressInt 57 100 = 56 := by decide
example : pyProgressInt 1 3 = 33 := by decide
example : pyProgressInt 100 100 = 100 := by decide
example : pyProgressInt 0 7 = 0 := by decide
example : pyProgressInt 2 3 = 66 := by decide

/-! ### Data model

Entities as persisted in `index.json` / `course.json`.  Python `int` fields
that flow in from the HTTP path (ids, time estimates) are modelled as `ℤ`;
counts are naturals.
-/

/-- One entry of the global index: `{id, slug}`. -/
structure CourseRef where
  id : Int
  slug : String
  deriving DecidableEq, Repr

/-- A topic record inside `course.json`. -/
structure Topic where
  id : Int
  title : String
  slug : String
  file : String
  completed : Bool
  priority : String
  time : Int
  locked : Bool
  deriving DecidableEq, Repr

/-- A module record inside `course.json`. -/
structure Module where
  id : Int
  title : String
  slug : String
  completed : Bool
  topics : List Topic
  deriving DecidableEq, Repr

/-- A per-course metadata record (`course.json`). -/
structure Course where
  id : Int
  code : String
  name : String
  slug : String
  progress : Nat
  modules : List Module
  deriving DecidableEq, Repr

/-- The durable state of the store: the global index (`index.json`), the
per-course records keyed by course slug, the content files keyed by path,
and the set of directories that exist on disk.  Ancestor directories
implicitly created by `os.makedirs` are not tracked separately; only the
paths passed to `os.makedirs` are recorded (no claim depends on more). -/
structure State where
  index : List CourseRef
  metas : List (String × Course)
  files : List (String × String)
  dirs : List String
  deriving DecidableEq, Repr

/-- Request body of `POST /courses`. -/
structure CourseCreate where
  code : String
  name : String
  deriving DecidableEq, Repr

/-- Request body of `POST /courses/{id}/modules`. -/
structure ModuleCreate where
  title : String
  deriving DecidableEq, Repr

/-- Request body of `POST .../topics`, with the pydantic defaults. -/
structure TopicCreate where
  title : String
  priority : String := "medium"
  time : Int := 15
  deriving DecidableEq, Repr

/-- Request body of `PATCH .../topics/{id}`, both fields optional. -/
structure TopicUpdate where
  content : Option String := none
  completed : Option Bool := none
  deriving DecidableEq, Repr

/-- Exceptions of the Python runtime that the embedding distinguishes:
`subprocess.CalledProcessError` (nonzero exit with `check=True`),
`FileNotFoundError` (the `git` executable is missing), and the
`TypeError`/`AttributeError` family raised by dereferencing `None`. -/
inductive PyExc
  | calledProcessError
  | fileNotFoundError
  | typeError
  deriving DecidableEq, Repr

/-- Outcome of a route handler: an `HTTPException(status_code, detail)`
raised deliberately, or an uncaught Python exception. -/
inductive ApiErr
  | httpError (statusCode : Nat) (detail : String)
  | pyError (e : PyExc)
  deriving DecidableEq, Repr

/-- Association-list lookup by string key (first match), modelling a file
read keyed by path. -/
def assocGet {α : Type} : List (String × α) → String → Option α
  | [], _ => none
  | (k, v) :: rest, key => if k == key then some v else assocGet rest key

/-- Association-list overwrite (or append) by string key, modelling a file
write keyed by path. -/
def assocSet {α : Type} : List (String × α) → String → α → List (String × α)
  | [], key, v => [(key, v)]
  | (k, w) :: rest, key, v =>
    if k == key then (k, v) :: rest else (k, w) :: assocSet rest key v

/-- `os.makedirs(path, exist_ok=True)`. -/
def insertDir (dirs : List String) (d : String) : List String :=
  if dirs.contains d then dirs else d :: dirs

/-- Replace the first element satisfying `p` (mutation of the object a
Python `next(...)` lookup aliases into the metadata tree). -/
def modifyFirst {α : Type} (p : α → Bool) (f : α → α) : List α → List α
  | [] => []
  | x :: xs => if p x then f x :: xs else x :: modifyFirst p f xs

/-! ### Paths (constants from `main.py`) -/

def REPO_PATH : String := "./coursemap-content"

def COURSES_DIR : String := REPO_PATH ++ "/courses"

/-- Directory of one course: `{COURSES_DIR}/{course_slug}`. -/
def courseDirPath (course_slug : String) : String := COURSES_DIR ++ "/" ++ course_slug

/-- Directory of one module: `{COURSES_DIR}/{course_slug}/{module_slug}`. -/
def moduleDirPath (course_slug module_slug : String) : String :=
  COURSES_DIR ++ "/" ++ course_slug ++ "/" ++ module_slug

/-- Content-file path: `{COURSES_DIR}/{course_slug}/{topic.file}`. -/
def topicFilePath (course_slug file : String) : String :=
  COURSES_DIR ++ "/" ++ course_slug ++ "/" ++ file

/-! ### Version-control ledger (`git_commit_push`) -/

/-- Deterministic behaviour of the external `git` tool during one request:
whether the binary exists, the exit codes of the `check=True` invocations,
and whether a remote is configured. -/
structure GitEnv where
  available : Bool
  addExit : Nat
  commitExit : Nat
  hasRemote : Bool
  pushExit : Nat
  deriving DecidableEq, Repr

/-- `subprocess.run([...], check=True)`: raises `FileNotFoundError` when the
tool is missing, `CalledProcessError` on a nonzero exit. -/
def runChecked (env : GitEnv) (exitCode : Nat) : Except PyExc Unit :=
  if env.available then
    (if exitCode = 0 then .ok () else .error .calledProcessError)
  else .error .fileNotFoundError

/-- `subprocess.run([...], capture_output=True)` without `check`: never
raises `CalledProcessError`, but still raises `FileNotFoundError` when the
tool is missing. -/
def runUnchecked (env : GitEnv) : Except PyExc Unit :=
  if env.available then .ok () else .error .fileNotFoundError

/-- `git_commit_push` from `main.py`: `git add .`, `git commit -m message`,
list remotes and push only if one is configured; the whole body is wrapped
in `try: ... except subprocess.CalledProcessError: return False`, so only
`CalledProcessError` is caught. -/
def git_commit_push (env : GitEnv) (message : String) : Except PyExc Bool :=
  let body : Except PyExc Bool := do
    runChecked env env.addExit
    runChecked env env.commitExit
    runUnchecked env
    if env.hasRemote then runChecked env env.pushExit
    pure true
  match body with
  | .error .calledProcessError => .ok false
  | r => r

/-! ### Metadata store and progress -/

/-- `get_course_meta`: load `course.json` for a slug, `None` when absent. -/
def get_course_meta (st : State) (course_slug : String) : Option Course :=
  assocGet st.metas course_slug

/-- `save_course_meta`: `os.makedirs(course_dir, exist_ok=True)` then write
the record. -/
def save_course_meta (st : State) (course_slug : String) (data : Course) : State :=
  { st with
    dirs := insertDir st.dirs (courseDirPath course_slug)
    metas := assocSet st.metas course_slug data }

/-- The counting loop of `calculate_progress`: `(total, completed)` over
every topic of every module. -/
def progressCounts (meta : Course) : Nat × Nat :=
  meta.modules.foldl
    (fun acc m =>
      m.topics.foldl
        (fun acc2 t => (acc2.1 + 1, if t.completed then acc2.2 + 1 else acc2.2))
        acc)
    (0, 0)

/-- The arithmetic core of `calculate_progress` on one loaded course
record: `int(completed / total * 100)` in binary64 arithmetic when
`total > 0`, else `0`. -/
def courseProgress (meta : Course) : Nat :=
  let c := progressCounts meta
  if 0 < c.1 then pyProgressInt c.2 c.1 else 0

/-- `calculate_progress(course_slug)`: `0` for a missing record, otherwise
the progress of the loaded course record. -/
def calculate_progress (st : State) (course_slug : String) : Nat :=
  match get_course_meta st course_slug with
  | none => 0
  | some meta => courseProgress meta

/-! ### Route handlers

Read-only handlers are pure functions of the state; mutating handlers also
take a `GitEnv` and return the post-request state next to the outcome.  A
`git` failure that `git_commit_push` does not swallow propagates out of the
handler (second component `.error`), but the file mutations already
performed remain in the returned state — exactly as on disk.
-/

/-- `GET /courses`: list every index entry whose `course.json` loads,
with freshly recomputed progress. -/
def get_courses (st : State) : List Course :=
  st.index.filterMap (fun course_ref =>
    match get_course_meta st course_ref.slug with
    | some meta => some { meta with progress := calculate_progress st course_ref.slug }
    | none => none)

/-- `POST /courses` (`create_course`). -/
def create_course (env : GitEnv) (st : State) (course : CourseCreate) :
    State × Except ApiErr Course :=
  let course_slug := slugify (course.code ++ "-" ++ course.name)
  let course_dir := courseDirPath course_slug
  if st.dirs.contains course_dir then
    (st, .error (.httpError 400 "Course already exists"))
  else
    let st1 : State := { st with dirs := insertDir st.dirs course_dir }
    let course_id : Int := (st1.index.length : Int) + 1
    let meta : Course :=
      { id := course_id, code := course.code, name := course.name,
        slug := course_slug, progress := 0, modules := [] }
    let st2 := save_course_meta st1 course_slug meta
    let st3 : State := { st2 with index := st2.index ++ [{ id := course_id, slug := course_slug }] }
    match git_commit_push env ("Create course: " ++ course.code ++ " - " ++ course.name) with
    | .error e => (st3, .error (.pyError e))
    | .ok _ => (st3, .ok meta)

/-- `GET /courses/{course_id}` (`get_course`). -/
def get_course (st : State) (course_id : Int) : Except ApiErr Course :=
  match st.index.find? (fun c => c.id == course_id) with
  | none => .error (.httpError 404 "Course not found")
  | some course_ref =>
    match get_course_meta st course_ref.slug with
    | none => .error (.httpError 404 "Course metadata not found")
    | some meta => .ok { meta with progress := calculate_progress st course_ref.slug }

/-- `POST /courses/{course_id}/modules` (`create_module`).  Note the source
calls `os.makedirs(module_dir)` before touching `meta`, so the directory is
created even when the metadata record is absent and the handler then dies
dereferencing `None`. -/
def create_module (env : GitEnv) (st : State) (course_id : Int) (module : ModuleCreate) :
    State × Except ApiErr Module :=
  match st.index.find? (fun c => c.id == course_id) with
  | none => (st, .error (.httpError 404 "Course not found"))
  | some course_ref =>
    let metaOpt := get_course_meta st course_ref.slug
    let module_slug := slugify module.title
    let module_dir := moduleDirPath course_ref.slug module_slug
    let st1 : State := { st with dirs := insertDir st.dirs module_dir }
    match metaOpt with
    | none => (st1, .error (.pyError .typeError))
    | some meta =>
      let module_id : Int := (meta.modules.length : Int) + 1
      let new_module : Module :=
        { id := module_id, title := module.title, slug := module_slug,
          completed := false, topics := [] }
      let st2 := save_course_meta st1 course_ref.slug
        { meta with modules := meta.modules ++ [new_module] }
      match git_commit_push env ("Add module: " ++ module.title) with
      | .error e => (st2, .error (.pyError e))
      | .ok _ => (st2, .ok new_module)

/-- The fixed markdown template a new topic's file is seeded with. -/
def topicTemplate (title : String) : String :=
  "# " ++ title ++
  "\n\n## Overview\nWrite your content here...\n\n## Key Concepts\n\n## Examples\n\n## Practice Problems\n"

/-- `POST /courses/{course_id}/modules/{module_id}/topics` (`create_topic`). -/
def create_topic (env : GitEnv) (st : State) (course_id module_id : Int) (topic : TopicCreate) :
    State × Except ApiErr Topic :=
  match st.index.find? (fun c => c.id == course_id) with
  | none => (st, .error (.httpError 404 "Course not found"))
  | some course_ref =>
    match get_course_meta st course_ref.slug with
    | none => (st, .error (.pyError .typeError))
    | some meta =>
      match meta.modules.find? (fun m => m.id == module_id) with
      | none => (st, .error (.httpError 404 "Module not found"))
      | some module =>
        let topic_slug := slugify topic.title
        let topic_file := COURSES_DIR ++ "/" ++ course_ref.slug ++ "/" ++ module.slug ++ "/" ++ topic_slug ++ ".md"
        let st1 : State := { st with files := assocSet st.files topic_file (topicTemplate topic.title) }
        let topic_id : Int := (module.topics.length : Int) + 1
        let new_topic : Topic :=
          { id := topic_id, title := topic.title, slug := topic_slug,
            file := module.slug ++ "/" ++ topic_slug ++ ".md",
            completed := false, priority := topic.priority, time := topic.time,
            locked := false }
        let st2 := save_course_meta st1 course_ref.slug
          { meta with
            modules := modifyFirst (fun m => m.id == module_id)
              (fun m => { m with topics := m.topics ++ [new_topic] }) meta.modules }
        match git_commit_push env ("Add topic: " ++ topic.title) with
        | .error e => (st2, .error (.pyError e))
        | .ok _ => (st2, .ok new_topic)

/-- `GET .../topics/{topic_id}` (`get_topic`): the topic record together
with the content file's text (empty string when the file is missing). -/
def get_topic (st : State) (course_id module_id topic_id : Int) :
    Except ApiErr (Topic × String) :=
  match st.index.find? (fun c => c.id == course_id) with
  | none => .error (.httpError 404 "Course not found")
  | some course_ref =>
    match get_course_meta st course_ref.slug with
    | none => .error (.pyError .typeError)
    | some meta =>
      match meta.modules.find? (fun m => m.id == module_id) with
      | none => .error (.httpError 404 "Module not found")
      | some module =>
        match module.topics.find? (fun t => t.id == topic_id) with
        | none => .error (.httpError 404 "Topic not found")
        | some topic =>
          let content := (assocGet st.files (topicFilePath course_ref.slug topic.file)).getD ""
          .ok (topic, content)

/-- `PATCH .../topics/{topic_id}` (`update_topic`): up to two independent
mutate-and-commit cycles, one for `content`, one for `completed`, then the
response re-reads the content file. -/
def update_topic (env : GitEnv) (st : State) (course_id module_id topic_id : Int)
    (updates : TopicUpdate) : State × Except ApiErr (Topic × String) :=
  match st.index.find? (fun c => c.id == course_id) with
  | none => (st, .error (.httpError 404 "Course not found"))
  | some course_ref =>
    match get_course_meta st course_ref.slug with
    | none => (st, .error (.pyError .typeError))
    | some meta =>
      match meta.modules.find? (fun m => m.id == module_id) with
      | none => (st, .error (.httpError 404 "Module not found"))
      | some module =>
        match module.topics.find? (fun t => t.id == topic_id) with
        | none => (st, .error (.httpError 404 "Topic not found"))
        | some topic =>
          let path := topicFilePath course_ref.slug topic.file
          -- `if updates.content is not None:` — write the file, commit.
          let afterContent : State × Option PyExc :=
            match updates.content with
            | none => (st, none)
            | some content =>
              let st1 : State := { st with files := assocSet st.files path content }
              match git_commit_push env ("Update topic: " ++ topic.title) with
              | .error e => (st1, some e)
              | .ok _ => (st1, none)
          match afterContent with
          | (st1, some e) => (st1, .error (.pyError e))
          | (st1, none) =>
            -- `if updates.completed is not None:` — mutate metadata, commit.
            let afterCompleted : State × Topic × Option PyExc :=
              match updates.completed with
              | none => (st1, topic, none)
              | some b =>
                let topic2 : Topic := { topic with completed := b }
                let meta2 : Course :=
                  { meta with
                    modules := modifyFirst (fun m => m.id == module_id)
                      (fun m =>
                        { m with
                          topics := modifyFirst (fun t => t.id == topic_id)
                            (fun t => { t with completed := b }) m.topics })
                      meta.modules }
                let st2 := save_course_meta st1 course_ref.slug meta2
                match git_commit_push env
                    ((if b then "Mark complete: " else "Mark incomplete: ") ++ topic.title) with
                | .error e => (st2, topic2, some e)
                | .ok _ => (st2, topic2, none)
            match afterCompleted with
            | (st2, _, some e) => (st2, .error (.pyError e))
            | (st2, topic2, none) =>
              let content := (assocGet st2.files path).getD ""
              (st2, .ok (topic2, content))

/-! ### Search -/

/-- Does the first list start the second one? -/
def isPrefixOfL : List Char → List Char → Bool
  | [], _ => true
  | _ :: _, [] => false
  | a :: as, b :: bs => a == b && isPrefixOfL as bs

/-- Contiguous-substring test on character lists (Python's `in` on `str`). -/
def isSubstrL (needle : List Char) : List Char → Bool
  | [] => needle.isEmpty
  | b :: rest => isPrefixOfL needle (b :: rest) || isSubstrL needle rest

/-- Python `needle in hay` on strings. -/
def substrIn (needle hay : String) : Bool := isSubstrL needle.data hay.data

/-- Python `str.lower` (ASCII fragment). -/
def pyLowerStr (s : String) : String := ⟨s.data.map pyLower⟩

/-- One hit of `GET /search`.  The Python handler returns dicts with a
`"type"` discriminator; the three shapes become three constructors. -/
inductive SearchResult
  | course (course_id : Int) (title : String)
  | module (course_id module_id : Int) (title : String)
  | topic (course_id module_id topic_id : Int) (title : String)
  deriving DecidableEq, Repr

/-- `GET /search` (`search`): walk the index in order, skipping entries
without metadata; a course hits on `code` or `name`, a module on its title,
a topic only when both its title and its content file match (a missing file
is no match); results accumulate in traversal order and the final list is
truncated to the first 20. -/
def search (st : State) (q : String) : List SearchResult :=
  let q_lower := pyLowerStr q
  let results := st.index.foldl
    (fun results course_ref =>
      match get_course_meta st course_ref.slug with
      | none => results
      | some meta =>
        let results :=
          if substrIn q_lower (pyLowerStr meta.code) || substrIn q_lower (pyLowerStr meta.name) then
            results ++ [SearchResult.course meta.id (meta.code ++ " - " ++ meta.name)]
          else results
        meta.modules.foldl
          (fun results m =>
            let results :=
              if substrIn q_lower (pyLowerStr m.title) then
                results ++ [SearchResult.module meta.id m.id (meta.code ++ " > " ++ m.title)]
              else results
            m.topics.foldl
              (fun results t =>
                if substrIn q_lower (pyLowerStr t.title) then
                  match assocGet st.files (topicFilePath course_ref.slug t.file) with
                  | some content =>
                    if substrIn q_lower (pyLowerStr content) then
                      results ++ [SearchResult.topic meta.id m.id t.id
                        (meta.code ++ " > " ++ m.title ++ " > " ++ t.title)]
                    else results
                  | none => results
                else results)
              results)
          results)
    []
  results.take 20

deriving instance DecidableEq for Except

/-! ### Concrete fixtures and sanity checks

A small executable scenario (the one from the spec's testable properties):
create course `CS101 - Algorithms`, module `Sorting`, topic `Algo Basics`,
then toggle completion.  These values also feed the witness theorems.
-/

/-- A git environment where every command succeeds and no remote exists. -/
def envOk : GitEnv := ⟨true, 0, 0, false, 0⟩

/-- A git environment where the `git` binary itself is missing. -/
def envNoGit : GitEnv := ⟨false, 0, 0, false, 0⟩

/-- A git environment where `git add`/`git commit` exit nonzero
(e.g. nothing to commit). -/
def envCommitFails : GitEnv := ⟨true, 0, 1, false, 0⟩

/-- The empty store (fresh `init_repo`). -/
def st0 : State := ⟨[], [], [], []⟩

def step1 := create_course envOk st0 ⟨"CS101", "Algorithms"⟩

example : (step1.2.toOption.map Course.slug) = some "cs101-algorithms" := by decide
example : step1.1.index = [⟨1, "cs101-algorithms"⟩] := by decide
example : search step1.1 "algo" = [.course 1 "CS101 - Algorithms"] := by decide

def step2 := create_module envOk step1.1 1 ⟨"Sorting"⟩

example : (step2.2.toOption.map Module.id) = some 1 := by decide

def step3 := create_topic envOk step2.1 1 1 { title := "Algo Basics" }

example : (step3.2.toOption.map Topic.priority) = some "medium" := by decide
example : (step3.2.toOption.map Topic.time) = some 15 := by decide
example :
    assocGet step3.1.files "./coursemap-content/courses/cs101-algorithms/sorting/algo-basics.md"
      = some (topicTemplate "Algo Basics") := by decide
-- topic title and its template content both contain "algo"
example : search step3.1 "algo" =
    [.course 1 "CS101 - Algorithms", .topic 1 1 1 "CS101 > Sorting > Algo Basics"] := by decide

def step4 := update_topic envOk step3.1 1 1 1 { completed := some true }

example : step4.1.files = step3.1.files := by decide

def expectedTopic : Topic :=
  ⟨1, "Algo Basics", "algo-basics", "sorting/algo-basics.md", true, "medium", 15, false⟩

def expectedCourse : Course :=
  ⟨1, "CS101", "Algorithms", "cs101-algorithms", 100, [⟨1, "Sorting", "sorting", false, [expectedTopic]⟩]⟩

example : get_course step4.1 1 = .ok expectedCourse := by decide
example : get_topic step4.1 1 2 1 = .error (.httpError 404 "Module not found") := by decide

/-- Overwrite the topic's content with text that no longer contains its
title: the title still matches `"basics"` but the content does not. -/
def step5 := update_topic envOk step3.1 1 1 1 { content := some "nothing to see here" }

example : search step3.1 "basics" = [.topic 1 1 1 "CS101 > Sorting > Algo Basics"] := by decide
-- title-only match without a content hit yields no topic result
example : search step5.1 "basics" = [] := by decide

/-! ### Spec-side definitions and further fixtures -/

/-- Modelled from the spec (§4.6): a topic is a hit exactly when the query
is a substring of the topic title AND a substring of the topic's content
file body, a missing content file counting as "no content match". -/
def topicHitSpec (st : State) (course_slug q_lower : String) (t : Topic) : Bool :=
  substrIn q_lower (pyLowerStr t.title) &&
    (match assocGet st.files (topicFilePath course_slug t.file) with
     | some content => substrIn q_lower (pyLowerStr content)
     | none => false)

/-- Modelled from the spec (§4.6): the full, untruncated hit list in
traversal order — courses in index order (entries without metadata
skipped), then each course's modules in stored order, then each module's
topics in stored order; course hits on code or name, module hits on title,
topic hits per `topicHitSpec`. -/
def searchAllSpec (st : State) (q : String) : List SearchResult :=
  let q_lower := pyLowerStr q
  st.index.flatMap (fun course_ref =>
    match get_course_meta st course_ref.slug with
    | none => []
    | some meta =>
      (if substrIn q_lower (pyLowerStr meta.code) || substrIn q_lower (pyLowerStr meta.name) then
        [SearchResult.course meta.id (meta.code ++ " - " ++ meta.name)]
      else []) ++
      meta.modules.flatMap (fun m =>
        (if substrIn q_lower (pyLowerStr m.title) then
          [SearchResult.module meta.id m.id (meta.code ++ " > " ++ m.title)]
        else []) ++
        m.topics.flatMap (fun t =>
          if topicHitSpec st course_ref.slug q_lower t then
            [SearchResult.topic meta.id m.id t.id
              (meta.code ++ " > " ++ m.title ++ " > " ++ t.title)]
          else [])))

/-- Modelled from the spec (§4.5): the claim's formula in exact rational
arithmetic, `floor(completed / total * 100)` when `total > 0`, else `0`
(for naturals, `completed * 100 / total` is exactly that floor). -/
def specFloorProgress (completed total : Nat) : Nat :=
  if 0 < total then completed * 100 / total else 0

/-- A completed topic (fixture). -/
def topicDone : Topic := ⟨1, "T", "t", "m/t.md", true, "medium", 15, false⟩

/-- An uncompleted topic (fixture). -/
def topicTodo : Topic := ⟨2, "U", "u", "m/u.md", false, "medium", 15, false⟩

/-- A course with 100 topics, 29 of them completed. -/
def course29of100 : Course :=
  ⟨1, "C", "Course", "c-course", 0,
    [⟨1, "M", "m", false, List.replicate 29 topicDone ++ List.replicate 71 topicTodo⟩]⟩

/-- The per-course record present in the store after `step3`. -/
def metaStep3 : Course :=
  ⟨1, "CS101", "Algorithms", "cs101-algorithms", 0,
    [⟨1, "Sorting", "sorting", false,
      [⟨1, "Algo Basics", "algo-basics", "sorting/algo-basics.md", false, "medium", 15, false⟩]⟩]⟩

/-- An index entry pointing at a slug with no `course.json` behind it. -/
def stBroken : State := ⟨[⟨1, "ghost"⟩], [], [], []⟩

/-- The course record created by `step1`. -/
def courseMeta0 : Course := ⟨1, "CS101", "Algorithms", "cs101-algorithms", 0, []⟩

/-- The module record created by `step2`. -/
def moduleRec0 : Module := ⟨1, "Sorting", "sorting", false, []⟩

/-- The topic record created by `step3`. -/
def topicRec0 : Topic :=
  ⟨1, "Algo Basics", "algo-basics", "sorting/algo-basics.md", false, "medium", 15, false⟩


/-! ### Claim C2: `create_course` on an existing directory -/

/-- Claim C2: whenever the directory derived from the new course's slug
already exists, `create_course` fails with the AlreadyExists fault
(HTTP 400, "Course already exists") and returns the state completely
unchanged — the existence check precedes every mutation, so the index,
all per-course records, all content files and all directories are intact. -/
theorem create_course_rejects_existing_dir (env : GitEnv) (st : State) (course : CourseCreate)
    (h : st.dirs.contains (courseDirPath (slugify (course.code ++ "-" ++ course.name))) = true) :
    create_course env st course = (st, .error (.httpError 400 "Course already exists")) := by
  simp only [create_course, h, if_true]

/-- Witness for C2: re-creating `CS101 - Algorithms` in the state that
already holds it is rejected and mutates nothing. -/
theorem create_course_rejects_existing_dir_witness :
    (step1.1.dirs.contains
        (courseDirPath (slugify ("CS101" ++ "-" ++ "Algorithms"))) = true) ∧
    create_course envOk step1.1 ⟨"CS101", "Algorithms"⟩ =
      (step1.1, .error (.httpError 400 "Course already exists")) :=
  ⟨by decide, create_course_rejects_existing_dir envOk step1.1 ⟨"CS101", "Algorithms"⟩ (by decide)⟩

/-! ### Claim C3: ledger failure policy -/

/-- Counterexample to claim C3 as stated: when the version-control tool is
unavailable, `subprocess.run` raises `FileNotFoundError`, which the
`except subprocess.CalledProcessError` handler does **not** catch, so
`commit(message)` does raise to the orchestrator. -/
theorem git_commit_push_raises_counterexample :
    git_commit_push envNoGit "Create course: CS101 - Algorithms" =
      .error .fileNotFoundError := by decide

/-- Claim C3 (amended): failures reported by the git commands as nonzero
exit status (nothing to commit, publish failure) are caught and swallowed —
whenever the git tool is available, `git_commit_push` never raises and
returns a boolean — and the preceding durable file mutation is never rolled
back: the post-state of `create_module` does not depend on the ledger
environment at all.  Only the missing-tool `FileNotFoundError` escapes. -/
theorem git_commit_push_swallows_exit_failures (env : GitEnv) (message : String)
    (h : env.available = true) :
    (∃ b, git_commit_push env message = .ok b) ∧
    (∀ (env' : GitEnv) (st : State) (cid : Int) (m : ModuleCreate),
      (create_module env' st cid m).1 = (create_module envOk st cid m).1) := by
  constructor
  · unfold git_commit_push runChecked runUnchecked
    by_cases ha : env.addExit = 0 <;> by_cases hc : env.commitExit = 0 <;>
      by_cases hr : env.hasRemote <;> by_cases hp : env.pushExit = 0 <;>
        simp [h, ha, hc, hr, hp, bind, Except.bind, pure, Except.pure]
  · intro env' st cid m
    simp only [create_module]
    cases st.index.find? (fun c => c.id == cid) with
    | none => rfl
    | some cref =>
      dsimp only
      cases get_course_meta st cref.slug with
      | none => rfl
      | some meta =>
        dsimp only
        cases git_commit_push env' ("Add module: " ++ m.title) <;>
          cases git_commit_push envOk ("Add module: " ++ m.title) <;> rfl

/-- Witness for C3 (amended): with git present but `git commit` failing
(nothing to commit), the ledger swallows the failure; and `create_module`
leaves the same state behind whether or not git is even installed. -/
theorem git_commit_push_swallows_exit_failures_witness :
    (∃ b, git_commit_push envCommitFails "Add module: Sorting" = .ok b) ∧
    (create_module envNoGit step1.1 1 ⟨"Sorting"⟩).1 =
      (create_module envOk step1.1 1 ⟨"Sorting"⟩).1 :=
  ⟨(git_commit_push_swallows_exit_failures envCommitFails "Add module: Sorting" rfl).1,
   (git_commit_push_swallows_exit_failures envCommitFails "x" rfl).2 envNoGit step1.1 1 ⟨"Sorting"⟩⟩

/-! ### Claim C5: `update_topic` frame properties -/

/-- Claim C5: a `PATCH` that only sets `completed` never touches any
content file (the file map of the post-state is unchanged, so the topic's
file is byte-identical), and a `PATCH` that only sets `content` never
touches any metadata record (so the topic's `completed` flag and every
other metadata field are unchanged), nor the index or the directories. -/
theorem update_topic_frame_properties (env : GitEnv) (st : State) (cid mid tid : Int) :
    (∀ b, (update_topic env st cid mid tid { completed := some b }).1.files = st.files) ∧
    (∀ s, (update_topic env st cid mid tid { content := some s }).1.metas = st.metas ∧
      (update_topic env st cid mid tid { content := some s }).1.index = st.index ∧
      (update_topic env st cid mid tid { content := some s }).1.dirs = st.dirs) := by
  constructor
  · intro b
    simp only [update_topic]
    cases st.index.find? (fun c => c.id == cid) with
    | none => rfl
    | some cref =>
      dsimp only
      cases get_course_meta st cref.slug with
      | none => rfl
      | some meta =>
        dsimp only
        cases meta.modules.find? (fun m => m.id == mid) with
        | none => rfl
        | some module =>
          dsimp only
          cases module.topics.find? (fun t => t.id == tid) with
          | none => rfl
          | some topic =>
            dsimp only
            cases git_commit_push env
                ((if b then "Mark complete: " else "Mark incomplete: ") ++ topic.title) <;>
              rfl
  · intro s
    refine ⟨?_, ?_, ?_⟩ <;>
      · simp only [update_topic]
        cases st.index.find? (fun c => c.id == cid) with
        | none => rfl
        | some cref =>
          dsimp only
          cases get_course_meta st cref.slug with
          | none => rfl
          | some meta =>
            dsimp only
            cases meta.modules.find? (fun m => m.id == mid) with
            | none => rfl
            | some module =>
              dsimp only
              cases module.topics.find? (fun t => t.id == tid) with
              | none => rfl
              | some topic =>
                dsimp only
                cases git_commit_push env ("Update topic: " ++ topic.title) <;> rfl

/-! ### Claim C9: fail-fast `NotFound` naming the first missing level -/

/-- Claim C9: every lookup-by-id operation resolves course, then module,
then topic, and fails at the first level whose id does not resolve with a
404 fault naming exactly that level; in particular a topic request under an
existing course (whose metadata loads) but a nonexistent module id yields
"Module not found" — not a course or topic fault — and no state mutation. -/
theorem lookup_fails_fast_with_level (env : GitEnv) (st : State) (cid mid tid : Int) :
    (st.index.find? (fun c => c.id == cid) = none →
      get_course st cid = .error (.httpError 404 "Course not found") ∧
      (∀ m, create_module env st cid m = (st, .error (.httpError 404 "Course not found"))) ∧
      (∀ tc, create_topic env st cid mid tc = (st, .error (.httpError 404 "Course not found"))) ∧
      get_topic st cid mid tid = .error (.httpError 404 "Course not found") ∧
      (∀ u, update_topic env st cid mid tid u = (st, .error (.httpError 404 "Course not found")))) ∧
    (∀ cref meta, st.index.find? (fun c => c.id == cid) = some cref →
      get_course_meta st cref.slug = some meta →
      meta.modules.find? (fun m => m.id == mid) = none →
      (∀ tc, create_topic env st cid mid tc = (st, .error (.httpError 404 "Module not found"))) ∧
      get_topic st cid mid tid = .error (.httpError 404 "Module not found") ∧
      (∀ u, update_topic env st cid mid tid u = (st, .error (.httpError 404 "Module not found")))) ∧
    (∀ cref meta module, st.index.find? (fun c => c.id == cid) = some cref →
      get_course_meta st cref.slug = some meta →
      meta.modules.find? (fun m => m.id == mid) = some module →
      module.topics.find? (fun t => t.id == tid) = none →
      get_topic st cid mid tid = .error (.httpError 404 "Topic not found") ∧
      (∀ u, update_topic env st cid mid tid u = (st, .error (.httpError 404 "Topic not found")))) := by
  refine ⟨fun hf => ⟨?_, ?_, ?_, ?_, ?_⟩,
    fun cref meta hf hm hmod => ⟨?_, ?_, ?_⟩,
    fun cref meta module hf hm hmod htop => ⟨?_, ?_⟩⟩
  · simp only [get_course, hf]
  · intro m; simp only [create_module, hf]
  · intro tc; simp only [create_topic, hf]
  · simp only [get_topic, hf]
  · intro u; simp only [update_topic, hf]
  · intro tc; simp only [create_topic, hf, hm, hmod]
  · simp only [get_topic, hf, hm, hmod]
  · intro u; simp only [update_topic, hf, hm, hmod]
  · simp only [get_topic, hf, hm, hmod, htop]
  · intro u; simp only [update_topic, hf, hm, hmod, htop]

/-- Witness for C9: in the concrete store, an unknown course id names the
course, an unknown module id under course 1 names the module, an unknown
topic id under module 1 names the topic. -/
theorem lookup_fails_fast_with_level_witness :
    get_course step3.1 99 = .error (.httpError 404 "Course not found") ∧
    get_topic step3.1 1 5 1 = .error (.httpError 404 "Module not found") ∧
    get_topic step3.1 1 1 7 = .error (.httpError 404 "Topic not found") :=
  ⟨((lookup_fails_fast_with_level envOk step3.1 99 1 1).1 (by decide)).1,
   ((lookup_fails_fast_with_level envOk step3.1 1 5 1).2.1 ⟨1, "cs101-algorithms"⟩ metaStep3
      (by decide) (by decide) (by decide)).2.1,
   ((lookup_fails_fast_with_level envOk step3.1 1 1 7).2.2 ⟨1, "cs101-algorithms"⟩ metaStep3
      ⟨1, "Sorting", "sorting", false,
        [⟨1, "Algo Basics", "algo-basics", "sorting/algo-basics.md", false, "medium", 15, false⟩]⟩
      (by decide) (by decide) (by decide) (by decide)).1⟩

/-! ### Claim C10: index entry whose metadata record is absent -/

/-- Metadata reads do not depend on the index field of the state. -/
theorem get_course_meta_set_index (st : State) (I : List CourseRef) (s : String) :
    get_course_meta { st with index := I } s = get_course_meta st s := rfl

/-- Progress computation does not depend on the index field of the state. -/
theorem calculate_progress_set_index (st : State) (I : List CourseRef) (s : String) :
    calculate_progress { st with index := I } s = calculate_progress st s := rfl

/-- Claim C10: when the index resolves a course id to a slug whose
`course.json` is missing, only the two read paths tolerate it —
`get_course` answers 404 "Course metadata not found" and `get_courses`
skips the entry — while `create_module`, `create_topic`, `get_topic` and
`update_topic` dereference the absent record and die with the uncaught
`NoneType` fault instead of a `NotFound` fault. -/
theorem missing_meta_divergence (env : GitEnv) (st : State) (cid mid tid : Int) (cref : CourseRef)
    (hf : st.index.find? (fun c => c.id == cid) = some cref)
    (hm : get_course_meta st cref.slug = none) :
    get_course st cid = .error (.httpError 404 "Course metadata not found") ∧
    (∀ pre post, st.index = pre ++ cref :: post →
      get_courses st = get_courses { st with index := pre ++ post }) ∧
    (∀ m, (create_module env st cid m).2 = .error (.pyError .typeError)) ∧
    (∀ tc, create_topic env st cid mid tc = (st, .error (.pyError .typeError))) ∧
    get_topic st cid mid tid = .error (.pyError .typeError) ∧
    (∀ u, update_topic env st cid mid tid u = (st, .error (.pyError .typeError))) := by
  refine ⟨?_, ?_, ?_, ?_, ?_, ?_⟩
  · simp only [get_course, hf, hm]
  · intro pre post hidx
    simp only [get_courses, hidx, get_course_meta_set_index, calculate_progress_set_index,
      List.filterMap_append, List.filterMap_cons, hm]
  · intro m; simp only [create_module, hf, hm]
  · intro tc; simp only [create_topic, hf, hm]
  · simp only [get_topic, hf, hm]
  · intro u; simp only [update_topic, hf, hm]

/-- Witness for C10 at the concrete broken store. -/
theorem missing_meta_divergence_witness :
    get_course stBroken 1 = .error (.httpError 404 "Course metadata not found") ∧
    get_courses stBroken = get_courses { stBroken with index := [] } ∧
    (create_module envOk stBroken 1 ⟨"M"⟩).2 = .error (.pyError .typeError) ∧
    create_topic envOk stBroken 1 1 { title := "T" } = (stBroken, .error (.pyError .typeError)) ∧
    get_topic stBroken 1 1 1 = .error (.pyError .typeError) ∧
    update_topic envOk stBroken 1 1 1 {} = (stBroken, .error (.pyError .typeError)) := by
  refine ⟨?_, ?_, ?_, ?_, ?_, ?_⟩
  · exact (missing_meta_divergence envOk stBroken 1 1 1 ⟨1, "ghost"⟩ (by decide) (by decide)).1
  · exact (missing_meta_divergence envOk stBroken 1 1 1 ⟨1, "ghost"⟩ (by decide) (by decide)).2.1
      [] [] (by decide)
  · exact (missing_meta_divergence envOk stBroken 1 1 1 ⟨1, "ghost"⟩ (by decide) (by decide)).2.2.1 ⟨"M"⟩
  · exact (missing_meta_divergence envOk stBroken 1 1 1 ⟨1, "ghost"⟩ (by decide) (by decide)).2.2.2.1
      { title := "T" }
  · exact (missing_meta_divergence envOk stBroken 1 1 1 ⟨1, "ghost"⟩ (by decide) (by decide)).2.2.2.2.1
  · exact (missing_meta_divergence envOk stBroken 1 1 1 ⟨1, "ghost"⟩ (by decide)
      (by decide)).2.2.2.2.2 {}

/-! ### Claim C6: count-derived identifiers -/

/-- Claim C6: every successful creation assigns id = number of existing
siblings in its scope + 1: a course gets (index length + 1), a module gets
(modules in its course + 1), a topic gets (topics in its module + 1). -/
theorem created_ids_are_count_plus_one (env : GitEnv) (st : State) :
    (∀ (course : CourseCreate) (st' : State) (meta : Course),
      create_course env st course = (st', .ok meta) →
      meta.id = (st.index.length : Int) + 1) ∧
    (∀ (cid : Int) (mc : ModuleCreate) (cref : CourseRef) (meta : Course) (st' : State) (m : Module),
      st.index.find? (fun c => c.id == cid) = some cref →
      get_course_meta st cref.slug = some meta →
      create_module env st cid mc = (st', .ok m) →
      m.id = (meta.modules.length : Int) + 1) ∧
    (∀ (cid mid : Int) (tc : TopicCreate) (cref : CourseRef) (meta : Course) (module : Module)
        (st' : State) (t : Topic),
      st.index.find? (fun c => c.id == cid) = some cref →
      get_course_meta st cref.slug = some meta →
      meta.modules.find? (fun m => m.id == mid) = some module →
      create_topic env st cid mid tc = (st', .ok t) →
      t.id = (module.topics.length : Int) + 1) := by
  refine ⟨?_, ?_, ?_⟩
  · intro course st' meta h
    simp only [create_course] at h
    split at h
    · injection h with h1 h2
      exact Except.noConfusion h2
    · split at h
      · injection h with h1 h2
        exact Except.noConfusion h2
      · injection h with h1 h2
        injection h2 with h2
        rw [← h2]
  · intro cid mc cref meta st' m hf hm h
    simp only [create_module, hf, hm] at h
    split at h
    · injection h with h1 h2
      exact Except.noConfusion h2
    · injection h with h1 h2
      injection h2 with h2
      rw [← h2]
  · intro cid mid tc cref meta module st' t hf hm hmod h
    simp only [create_topic, hf, hm, hmod] at h
    split at h
    · injection h with h1 h2
      exact Except.noConfusion h2
    · injection h with h1 h2
      injection h2 with h2
      rw [← h2]

/-- Witness for C6 along the concrete scenario: the first course, the first
module of that course, and the first topic of that module all get id 1. -/
theorem created_ids_are_count_plus_one_witness :
    courseMeta0.id = (st0.index.length : Int) + 1 ∧
    moduleRec0.id = (courseMeta0.modules.length : Int) + 1 ∧
    topicRec0.id = (moduleRec0.topics.length : Int) + 1 :=
  ⟨(created_ids_are_count_plus_one envOk st0).1 ⟨"CS101", "Algorithms"⟩ step1.1 courseMeta0
      (by decide),
   (created_ids_are_count_plus_one envOk step1.1).2.1 1 ⟨"Sorting"⟩ ⟨1, "cs101-algorithms"⟩
      courseMeta0 step2.1 moduleRec0 (by decide) (by decide) (by decide),
   (created_ids_are_count_plus_one envOk step2.1).2.2 1 1 { title := "Algo Basics" }
      ⟨1, "cs101-algorithms"⟩
      ⟨1, "CS101", "Algorithms", "cs101-algorithms", 0, [moduleRec0]⟩ moduleRec0 step3.1 topicRec0
      (by decide) (by decide) (by decide) (by decide)⟩

/-! ### Claim C8: topic creation template and defaults -/

/-- String concatenation is associative. -/
theorem strAppend_assoc (a b c : String) : a ++ b ++ c = a ++ (b ++ c) := by
  obtain ⟨la⟩ := a
  obtain ⟨lb⟩ := b
  obtain ⟨lc⟩ := c
  show String.mk (la ++ lb ++ lc) = String.mk (la ++ (lb ++ lc))
  rw [List.append_assoc]

/-- Reading back the key just written returns the written value. -/
theorem assocGet_assocSet_self {α : Type} (l : List (String × α)) (k : String) (v : α) :
    assocGet (assocSet l k v) k = some v := by
  induction l with
  | nil => simp [assocSet, assocGet]
  | cons p rest ih =>
    obtain ⟨k', w⟩ := p
    by_cases h : k' == k
    · simp [assocSet, assocGet, h]
    · simp only [assocSet, assocGet, h, Bool.false_eq_true, if_false]
      exact ih

/-- Claim C8: a successful `create_topic` seeds the topic's content file
(at the path later used by reads) with the fixed template whose first line
is a top-level heading holding the topic's title, and the returned record
has `completed = false`, `locked = false`, and the request's priority/time,
which pydantic defaults to `"medium"` and `15` when not supplied. -/
theorem create_topic_template_and_defaults (env : GitEnv) (st : State) (cid mid : Int)
    (tc : TopicCreate) :
    (∀ (cref : CourseRef) (st' : State) (t : Topic),
      st.index.find? (fun c => c.id == cid) = some cref →
      create_topic env st cid mid tc = (st', .ok t) →
      assocGet st'.files (topicFilePath cref.slug t.file) = some (topicTemplate tc.title) ∧
      topicTemplate tc.title =
        "# " ++ tc.title ++
          "\n\n## Overview\nWrite your content here...\n\n## Key Concepts\n\n## Examples\n\n## Practice Problems\n" ∧
      t.title = tc.title ∧ t.completed = false ∧ t.locked = false ∧
      t.priority = tc.priority ∧ t.time = tc.time) ∧
    (∀ title : String,
      ({ title := title } : TopicCreate).priority = "medium" ∧
      ({ title := title } : TopicCreate).time = 15) := by
  constructor
  · intro cref st' t hf h
    simp only [create_topic, hf] at h
    cases hm : get_course_meta st cref.slug with
    | none =>
      rw [hm] at h
      exact absurd (congrArg Prod.snd h) (by simp)
    | some meta =>
      rw [hm] at h
      dsimp only at h
      cases hmod : meta.modules.find? (fun m => m.id == mid) with
      | none =>
        rw [hmod] at h
        exact absurd (congrArg Prod.snd h) (by simp)
      | some module =>
        rw [hmod] at h
        dsimp only at h
        split at h
        · injection h with h1 h2
          exact Except.noConfusion h2
        · injection h with hs h2
          injection h2 with h2
          subst hs
          subst h2
          refine ⟨?_, rfl, rfl, rfl, rfl, rfl, rfl⟩
          simp only [save_course_meta]
          rw [show topicFilePath cref.slug
              (module.slug ++ "/" ++ slugify tc.title ++ ".md") =
              COURSES_DIR ++ "/" ++ cref.slug ++ "/" ++ module.slug ++ "/" ++
                slugify tc.title ++ ".md" by
            simp [topicFilePath, strAppend_assoc]]
          exact assocGet_assocSet_self _ _ _
  · intro title
    exact ⟨rfl, rfl⟩

/-- Witness for C8 at the concrete scenario: `step3` wrote the template
for "Algo Basics" and returned the defaulted record. -/
theorem create_topic_template_and_defaults_witness :
    (assocGet step3.1.files (topicFilePath "cs101-algorithms" topicRec0.file) =
        some (topicTemplate "Algo Basics") ∧
      topicTemplate "Algo Basics" =
        "# " ++ "Algo Basics" ++
          "\n\n## Overview\nWrite your content here...\n\n## Key Concepts\n\n## Examples\n\n## Practice Problems\n" ∧
      topicRec0.title = "Algo Basics" ∧ topicRec0.completed = false ∧ topicRec0.locked = false ∧
      topicRec0.priority = ({ title := "Algo Basics" } : TopicCreate).priority ∧
      topicRec0.time = ({ title := "Algo Basics" } : TopicCreate).time) ∧
    ({ title := "Algo Basics" } : TopicCreate).priority = "medium" ∧
    ({ title := "Algo Basics" } : TopicCreate).time = 15 :=
  ⟨(create_topic_template_and_defaults envOk step2.1 1 1 { title := "Algo Basics" }).1
      ⟨1, "cs101-algorithms"⟩ step3.1 topicRec0 (by decide) (by decide),
   (create_topic_template_and_defaults envOk step2.1 1 1 { title := "Algo Basics" }).2
      "Algo Basics"⟩

/-! ### Claim C7: `slugify` idempotence and edge hyphens -/

/-- `Char.ofNat` round-trips on small codepoints. -/
theorem toNat_ofNat_small (n : Nat) (h : n < 55296) : (Char.ofNat n).toNat = n := by
  have hv : n.isValidChar := Or.inl h
  simp only [Char.ofNat, hv, dif_pos, Char.ofNatAux, Char.toNat]
  rfl

/-- Python's per-character lower-casing is idempotent. -/
theorem pyLower_idem (c : Char) : pyLower (pyLower c) = pyLower c := by
  unfold pyLower
  by_cases h : 65 ≤ c.toNat ∧ c.toNat ≤ 90
  · rw [if_pos h]
    have ht : (Char.ofNat (c.toNat + 32)).toNat = c.toNat + 32 :=
      toNat_ofNat_small _ (by omega)
    rw [if_neg (by rw [ht]; omega)]
  · rw [if_neg h, if_neg h]

/-- The run-collapser never emits a `[-\s]`-class character right after a
run (`inRun = true`) — its output in that mode never starts with one. -/
theorem collapseDashRuns_true_head (l : List Char) :
    ∀ c rest, collapseDashRuns true l = c :: rest → isDashSpace c = false := by
  induction l with
  | nil => intro c rest h; exact absurd h (by simp [collapseDashRuns])
  | cons a tail ih =>
    intro c rest h
    by_cases ha : isDashSpace a
    · rw [collapseDashRuns, if_pos ha, if_pos rfl, List.nil_append] at h
      exact ih c rest h
    · rw [collapseDashRuns, if_neg ha] at h
      injection h with h1 h2
      subst h1
      exact Bool.not_eq_true _ ▸ Bool.of_not_eq_true ha

/-- On input that does not start with a `[-\s]` character, the two
collapser modes agree. -/
theorem collapseDashRuns_true_eq_false (x : List Char)
    (hx : ∀ c rest, x = c :: rest → isDashSpace c = false) :
    collapseDashRuns true x = collapseDashRuns false x := by
  cases x with
  | nil => rfl
  | cons c rest =>
    have hc := hx c rest rfl
    rw [collapseDashRuns, collapseDashRuns, if_neg (by simp [hc]), if_neg (by simp [hc])]

/-- Collapsing `[-\s]` runs is idempotent. -/
theorem collapseDashRuns_idem (b : Bool) (l : List Char) :
    collapseDashRuns false (collapseDashRuns b l) = collapseDashRuns b l := by
  induction l generalizing b with
  | nil => cases b <;> rfl
  | cons c rest ih =>
    by_cases hd : isDashSpace c
    · cases b with
      | true =>
        rw [collapseDashRuns, if_pos hd, if_pos rfl, List.nil_append]
        exact ih true
      | false =>
        rw [collapseDashRuns, if_pos hd, if_neg (by simp), List.singleton_append]
        have hhead := collapseDashRuns_true_head rest
        rw [collapseDashRuns, if_pos (by decide : isDashSpace '-' = true), if_neg (by simp),
          List.singleton_append, collapseDashRuns_true_eq_false _ hhead, ih true]
    · rw [collapseDashRuns, if_neg hd]
      rw [collapseDashRuns, if_neg hd, ih false]

/-- Every character the collapser emits is either the hyphen it introduces
or an input character outside the `[-\s]` class. -/
theorem mem_collapseDashRuns {c : Char} : ∀ (b : Bool) (l : List Char),
    c ∈ collapseDashRuns b l → c = '-' ∨ (c ∈ l ∧ isDashSpace c = false) := by
  intro b l
  induction l generalizing b with
  | nil => intro h; exact absurd h (by simp [collapseDashRuns])
  | cons a tail ih =>
    intro h
    by_cases ha : isDashSpace a
    · rw [collapseDashRuns, if_pos ha] at h
      rcases List.mem_append.mp h with h1 | h2
      · cases b with
        | true => exact absurd h1 (by simp)
        | false =>
          left
          simpa using h1
      · rcases ih true h2 with h3 | ⟨h4, h5⟩
        · exact .inl h3
        · exact .inr ⟨List.mem_cons_of_mem _ h4, h5⟩
    · rw [collapseDashRuns, if_neg ha] at h
      rcases List.mem_cons.mp h with h1 | h2
      · subst h1
        exact .inr ⟨List.mem_cons_self _ _, Bool.of_not_eq_true ha ▸ rfl⟩
      · rcases ih false h2 with h3 | ⟨h4, h5⟩
        · exact .inl h3
        · exact .inr ⟨List.mem_cons_of_mem _ h4, h5⟩

/-- Membership survives `pyStrip` backwards. -/
theorem mem_of_mem_pyStrip {c : Char} {l : List Char} (h : c ∈ pyStrip l) : c ∈ l := by
  unfold pyStrip at h
  rw [List.mem_reverse] at h
  have h2 := (List.dropWhile_sublist _).subset h
  rw [List.mem_reverse] at h2
  exact (List.dropWhile_sublist _).subset h2

/-- `dropWhile` is the identity when no element satisfies the predicate. -/
theorem dropWhile_id_of_false (p : Char → Bool) (l : List Char)
    (h : ∀ c ∈ l, p c = false) : l.dropWhile p = l := by
  cases l with
  | nil => rfl
  | cons a rest =>
    rw [List.dropWhile_cons_of_neg]
    simp [h a (List.mem_cons_self _ _)]

/-- `pyStrip` is the identity on space-free lists. -/
theorem pyStrip_id (l : List Char) (h : ∀ c ∈ l, isSpaceChar c = false) : pyStrip l = l := by
  unfold pyStrip
  rw [dropWhile_id_of_false _ l h,
    dropWhile_id_of_false _ l.reverse (fun c hc => h c (List.mem_reverse.mp hc)),
    List.reverse_reverse]

/-- Mapping a pointwise-fixed function is the identity. -/
theorem map_id_of_fix (f : Char → Char) (l : List Char) (h : ∀ c ∈ l, f c = c) :
    l.map f = l := by
  induction l with
  | nil => rfl
  | cons a rest ih =>
    rw [List.map_cons, h a (List.mem_cons_self _ _),
      ih (fun c hc => h c (List.mem_cons_of_mem _ hc))]

/-- Claim C7 (amended): `slugify` is deterministic (a pure function of its
input) and idempotent, and the spec's example holds:
`"  Intro: Algorithms!  "` maps to `"intro-algorithms"`.  (The further
claim that every input with leading/trailing punctuation yields no
leading/trailing hyphens is refuted separately.) -/
theorem slugify_idempotent_and_example :
    (∀ x : String, slugify (slugify x) = slugify x) ∧
    slugify "  Intro: Algorithms!  " = "intro-algorithms" := by
  constructor
  · intro x
    unfold slugify
    show String.mk _ = String.mk _
    congr 1
    generalize x.data = l
    have hmem : ∀ c ∈ collapseDashRuns false (keepWordSpaceDash (pyStrip (l.map pyLower))),
        c = '-' ∨ (c ∈ keepWordSpaceDash (pyStrip (l.map pyLower)) ∧ isDashSpace c = false) :=
      fun c hc => mem_collapseDashRuns false _ hc
    have h1 : ∀ c ∈ collapseDashRuns false (keepWordSpaceDash (pyStrip (l.map pyLower))),
        pyLower c = c := by
      intro c hc
      rcases hmem c hc with h | ⟨hin, _⟩
      · subst h; rfl
      · have hin2 := mem_of_mem_pyStrip ((List.mem_filter.mp hin).1)
        rcases List.mem_map.mp hin2 with ⟨a, _, ha⟩
        rw [← ha, pyLower_idem]
    have h2 : ∀ c ∈ collapseDashRuns false (keepWordSpaceDash (pyStrip (l.map pyLower))),
        isSpaceChar c = false := by
      intro c hc
      rcases hmem c hc with h | ⟨_, hns⟩
      · subst h; rfl
      · unfold isDashSpace at hns
        exact (Bool.or_eq_false_iff.mp hns).2
    have h3 : ∀ c ∈ collapseDashRuns false (keepWordSpaceDash (pyStrip (l.map pyLower))),
        (isWordChar c || isSpaceChar c || c == '-') = true := by
      intro c hc
      rcases hmem c hc with h | ⟨hin, _⟩
      · subst h; rfl
      · exact (List.mem_filter.mp hin).2
    rw [map_id_of_fix _ _ h1, pyStrip_id _ h2]
    show collapseDashRuns false (List.filter _ _) = _
    rw [List.filter_eq_self.mpr h3]
    exact collapseDashRuns_idem false _
  · decide

/-- Counterexample to claim C7 as stated: the input `"!! hello"` has
leading punctuation, yet its slug `"-hello"` starts with a hyphen (the
space left behind after the punctuation is removed collapses to `-`); a
hyphen-framed input even keeps hyphens on both ends. -/
theorem slugify_edge_hyphens_counterexample :
    slugify "!! hello" = "-hello" ∧ ("-hello").data.head? = some '-' ∧
    slugify "-trailing-" = "-trailing-" := by decide

/-! ### Claim C1: search semantics -/

/-- A left fold whose step appends a per-element batch to the accumulator
equals the accumulator followed by the concatenation of all batches. -/
theorem foldl_emits {α β : Type} (f : List β → α → List β) (g : α → List β)
    (hf : ∀ acc x, f acc x = acc ++ g x) (l : List α) :
    ∀ acc : List β, l.foldl f acc = acc ++ l.flatMap g := by
  induction l with
  | nil => intro acc; simp
  | cons x xs ih =>
    intro acc
    rw [List.foldl_cons, hf, List.flatMap_cons, ih, List.append_assoc]

/-- The topics loop of `search` emits exactly the spec's topic hits. -/
theorem search_topics_fold (st : State) (ql cslug codeStr mtitle : String) (cid mid : Int)
    (topics : List Topic) (acc : List SearchResult) :
    topics.foldl
      (fun results t =>
        if substrIn ql (pyLowerStr t.title) then
          match assocGet st.files (topicFilePath cslug t.file) with
          | some content =>
            if substrIn ql (pyLowerStr content) then
              results ++ [SearchResult.topic cid mid t.id
                (codeStr ++ " > " ++ mtitle ++ " > " ++ t.title)]
            else results
          | none => results
        else results) acc
    = acc ++ topics.flatMap (fun t =>
        if topicHitSpec st cslug ql t then
          [SearchResult.topic cid mid t.id (codeStr ++ " > " ++ mtitle ++ " > " ++ t.title)]
        else []) := by
  refine foldl_emits _ _ ?_ topics acc
  intro acc t
  unfold topicHitSpec
  by_cases h1 : substrIn ql (pyLowerStr t.title)
  · cases hfile : assocGet st.files (topicFilePath cslug t.file) with
    | some content =>
      by_cases h2 : substrIn ql (pyLowerStr content) <;> simp [h1, hfile, h2]
    | none => simp [h1, hfile]
  · simp [h1]

/-- The modules loop of `search` emits exactly the spec's module and topic
hits. -/
theorem search_modules_fold (st : State) (ql cslug codeStr : String) (cid : Int)
    (modules : List Module) (acc : List SearchResult) :
    modules.foldl
      (fun results m =>
        m.topics.foldl
          (fun results t =>
            if substrIn ql (pyLowerStr t.title) then
              match assocGet st.files (topicFilePath cslug t.file) with
              | some content =>
                if substrIn ql (pyLowerStr content) then
                  results ++ [SearchResult.topic cid m.id t.id
                    (codeStr ++ " > " ++ m.title ++ " > " ++ t.title)]
                else results
              | none => results
            else results)
          (if substrIn ql (pyLowerStr m.title) then
            results ++ [SearchResult.module cid m.id (codeStr ++ " > " ++ m.title)]
          else results)) acc
    = acc ++ modules.flatMap (fun m =>
        (if substrIn ql (pyLowerStr m.title) then
          [SearchResult.module cid m.id (codeStr ++ " > " ++ m.title)]
        else []) ++
        m.topics.flatMap (fun t =>
          if topicHitSpec st cslug ql t then
            [SearchResult.topic cid m.id t.id (codeStr ++ " > " ++ m.title ++ " > " ++ t.title)]
          else [])) := by
  refine foldl_emits _ _ ?_ modules acc
  intro acc m
  rw [search_topics_fold]
  by_cases hm : substrIn ql (pyLowerStr m.title) <;> simp [hm, List.append_assoc]

/-- The index loop of `search` emits exactly the spec's hits. -/
theorem search_index_fold (st : State) (ql : String)
    (refs : List CourseRef) (acc : List SearchResult) :
    refs.foldl
      (fun results course_ref =>
        match get_course_meta st course_ref.slug with
        | none => results
        | some meta =>
          meta.modules.foldl
            (fun results m =>
              m.topics.foldl
                (fun results t =>
                  if substrIn ql (pyLowerStr t.title) then
                    match assocGet st.files (topicFilePath course_ref.slug t.file) with
                    | some content =>
                      if substrIn ql (pyLowerStr content) then
                        results ++ [SearchResult.topic meta.id m.id t.id
                          (meta.code ++ " > " ++ m.title ++ " > " ++ t.title)]
                      else results
                    | none => results
                  else results)
                (if substrIn ql (pyLowerStr m.title) then
                  results ++ [SearchResult.module meta.id m.id (meta.code ++ " > " ++ m.title)]
                else results))
            (if substrIn ql (pyLowerStr meta.code) || substrIn ql (pyLowerStr meta.name) then
              results ++ [SearchResult.course meta.id (meta.code ++ " - " ++ meta.name)]
            else results)) acc
    = acc ++ refs.flatMap (fun course_ref =>
        match get_course_meta st course_ref.slug with
        | none => []
        | some meta =>
          (if substrIn ql (pyLowerStr meta.code) || substrIn ql (pyLowerStr meta.name) then
            [SearchResult.course meta.id (meta.code ++ " - " ++ meta.name)]
          else []) ++
          meta.modules.flatMap (fun m =>
            (if substrIn ql (pyLowerStr m.title) then
              [SearchResult.module meta.id m.id (meta.code ++ " > " ++ m.title)]
            else []) ++
            m.topics.flatMap (fun t =>
              if topicHitSpec st course_ref.slug ql t then
                [SearchResult.topic meta.id m.id t.id
                  (meta.code ++ " > " ++ m.title ++ " > " ++ t.title)]
              else []))) := by
  refine foldl_emits _ _ ?_ refs acc
  intro acc cref
  cases hm : get_course_meta st cref.slug with
  | none => simp [hm]
  | some meta =>
    dsimp only
    rw [search_modules_fold]
    by_cases hc : substrIn ql (pyLowerStr meta.code) || substrIn ql (pyLowerStr meta.name) <;>
      simp [hc, List.append_assoc]

/-- Claim C1: `search` returns exactly the first at-most-20 hits, in
traversal order (index order, then modules in stored order, then topics in
stored order), of the spec's hit list — in which a topic appears if and
only if the query is (case-insensitively) a substring of both its title
and its content file's body, a topic with a title match but no content
match (or a missing file) contributing nothing. -/
theorem search_matches_spec (st : State) (q : String) :
    search st q = (searchAllSpec st q).take 20 ∧ (search st q).length ≤ 20 := by
  have hmain : search st q = (searchAllSpec st q).take 20 := by
    simp only [search, searchAllSpec]
    congr 1
    exact (search_index_fold st (pyLowerStr q) st.index []).trans (List.nil_append _)
  refine ⟨hmain, ?_⟩
  rw [hmain]
  exact List.length_take_le 20 _

/-! ### Claim C4: progress percentage -/

/-- Counterexample to claim C4 as stated: with 29 of 100 topics completed
the exact formula gives `floor(29/100*100) = 29`, but the code evaluates
`int(29/100 * 100)` in binary64 floats, where `29/100` rounds below `0.29`
and the product rounds to `28.999999999999996`, so it returns 28. -/
theorem calculate_progress_floor_counterexample :
    progressCounts course29of100 = (100, 29) ∧
    courseProgress course29of100 = 28 ∧
    specFloorProgress 29 100 = 29 ∧
    courseProgress course29of100 ≠ specFloorProgress 29 100 := by decide

/-- `bitLenFuel` ignores its fuel on `0`. -/
theorem bitLenFuel_zero : ∀ fuel, bitLenFuel fuel 0 = 0
  | 0 => rfl
  | _ + 1 => rfl

/-- With enough fuel, `bitLenFuel` brackets its argument between powers of
two. -/
theorem bitLenFuel_bounds (n : Nat) : ∀ fuel : Nat, 0 < n → n ≤ fuel →
    2 ^ (bitLenFuel fuel n - 1) ≤ n ∧ n < 2 ^ bitLenFuel fuel n := by
  induction n using Nat.strong_induction_on with
  | _ n ih =>
    intro fuel hn hfuel
    obtain ⟨f, rfl⟩ : ∃ f, fuel = f + 1 := ⟨fuel - 1, by omega⟩
    obtain ⟨m, rfl⟩ : ∃ m, n = m + 1 := ⟨n - 1, by omega⟩
    rw [bitLenFuel]
    by_cases hm : m = 0
    · subst hm
      norm_num [bitLenFuel_zero]
    · have hk1 : 0 < (m + 1) / 2 := by omega
      have hk2 : (m + 1) / 2 < m + 1 := by omega
      have hk3 : (m + 1) / 2 ≤ f := by omega
      obtain ⟨hlo, hhi⟩ := ih ((m + 1) / 2) hk2 f hk1 hk3
      set b := bitLenFuel f ((m + 1) / 2) with hb
      have hb1 : 1 ≤ b := by
        by_contra hb0
        push_neg at hb0
        have hb00 : b = 0 := by omega
        rw [hb00, pow_zero] at hhi
        omega
      have hq : (2:Nat) ^ b = 2 * 2 ^ (b - 1) := by
        conv_lhs => rw [show b = (b - 1) + 1 by omega]
        rw [pow_succ]
        ring
      have hq2 : (2:Nat) ^ (b + 1) = 2 * 2 ^ b := by
        rw [pow_succ]
        ring
      constructor
      · calc 2 ^ (b + 1 - 1) = 2 * 2 ^ (b - 1) := by rw [Nat.add_sub_cancel, hq]
        _ ≤ m + 1 := by omega
      · calc m + 1 < 2 * 2 ^ b := by omega
        _ = 2 ^ (b + 1) := hq2.symm

/-- For `n > 0`, `2 ^ (bitLen n - 1) ≤ n < 2 ^ bitLen n`. -/
theorem bitLen_bounds (n : Nat) (hn : 0 < n) :
    2 ^ (bitLen n - 1) ≤ n ∧ n < 2 ^ bitLen n :=
  bitLenFuel_bounds n n hn le_rfl

/-- `bitLen` is positive on positive input. -/
theorem bitLen_pos (n : Nat) (hn : 0 < n) : 1 ≤ bitLen n := by
  obtain ⟨_, hhi⟩ := bitLen_bounds n hn
  by_contra h
  push_neg at h
  have h0 : bitLen n = 0 := by omega
  rw [h0, pow_zero] at hhi
  omega

/-- Round-to-nearest never overshoots the true quotient by more than a
half. -/
theorem rne_le (N D : Nat) (hD : 0 < D) : (rne N D : ℚ) ≤ (N : ℚ) / D + 1 / 2 := by
  have hD' : (0:ℚ) < (D:ℚ) := by exact_mod_cast hD
  have key : ((N / D : Nat) : ℚ) + ((N % D : Nat) : ℚ) / D = (N : ℚ) / D := by
    have h := Nat.div_add_mod N D
    have h2 : ((D * (N / D) + N % D : Nat) : ℚ) = (N : ℚ) := by exact_mod_cast congrArg Nat.cast h
    push_cast at h2
    field_simp
    linarith
  have hr0 : (0:ℚ) ≤ ((N % D : Nat) : ℚ) / D := by positivity
  simp only [rne]
  split_ifs with h1 h2 h3
  · push_cast
    linarith
  · have h2' : (D:ℚ) < 2 * ((N % D : Nat):ℚ) := by exact_mod_cast h2
    have hhalf : (1:ℚ)/2 ≤ ((N % D : Nat):ℚ) / D := by
      rw [le_div_iff hD']
      linarith
    push_cast
    linarith
  · push_cast
    linarith
  · have heqD : D = 2 * (N % D) := by omega
    have heq : (D:ℚ) = 2 * ((N % D : Nat):ℚ) := by exact_mod_cast heqD
    have hhalf : (1:ℚ)/2 ≤ ((N % D : Nat):ℚ) / D := by
      rw [le_div_iff hD']
      linarith
    push_cast
    linarith

/-- The chosen exponent never exceeds the true binary logarithm:
`2 ^ qlog2 c t ≤ c / t`. -/
theorem qlog2_le (c t : Nat) (hc : 0 < c) (ht : 0 < t) :
    (2:ℚ) ^ (qlog2 c t) ≤ (c:ℚ) / t := by
  have ht' : (0:ℚ) < (t:ℚ) := by exact_mod_cast ht
  obtain ⟨hc1, _⟩ := bitLen_bounds c hc
  obtain ⟨_, ht2⟩ := bitLen_bounds t ht
  have hca : 1 ≤ bitLen c := bitLen_pos c hc
  have hcQ : (2:ℚ) ^ ((bitLen c : Int) - 1) ≤ (c : ℚ) := by
    have h := hc1
    have h2 : ((2 ^ (bitLen c - 1) : Nat) : ℚ) ≤ (c : ℚ) := by exact_mod_cast h
    rwa [Nat.cast_pow, Nat.cast_ofNat, ← zpow_natCast (2:ℚ) (bitLen c - 1),
      show ((bitLen c - 1 : Nat) : Int) = (bitLen c : Int) - 1 by omega] at h2
  have htQ : (t : ℚ) < (2:ℚ) ^ (bitLen t : Int) := by
    have h2 : (t : ℚ) < ((2 ^ bitLen t : Nat) : ℚ) := by exact_mod_cast ht2
    rwa [Nat.cast_pow, Nat.cast_ofNat, ← zpow_natCast (2:ℚ) (bitLen t)] at h2
  have hzpos : (0:ℚ) < (2:ℚ) ^ ((bitLen c : Int) - (bitLen t : Int) - 1) :=
    zpow_pos (by norm_num) _
  have hfall : (2:ℚ) ^ ((bitLen c : Int) - (bitLen t : Int) - 1) * (t : ℚ) ≤ (c : ℚ) :=
    calc (2:ℚ) ^ ((bitLen c : Int) - (bitLen t : Int) - 1) * (t : ℚ)
        ≤ (2:ℚ) ^ ((bitLen c : Int) - (bitLen t : Int) - 1) * (2:ℚ) ^ (bitLen t : Int) :=
          mul_le_mul_of_nonneg_left htQ.le hzpos.le
      _ = (2:ℚ) ^ ((bitLen c : Int) - 1) := by
          rw [← zpow_add₀ (by norm_num : (2:ℚ) ≠ 0)]
          congr 1
          ring
      _ ≤ (c : ℚ) := hcQ
  rw [le_div_iff₀ ht']
  simp only [qlog2]
  split_ifs with h1 h2 h3
  · -- `0 ≤ e` and the test `t * 2 ^ e ≤ c` certified the exponent
    have hcast : ((t * 2 ^ ((bitLen c : Int) - (bitLen t : Int)).toNat : Nat) : ℚ) ≤ (c : ℚ) := by
      exact_mod_cast h2
    push_cast at hcast
    rw [← zpow_natCast (2:ℚ), Int.toNat_of_nonneg h1] at hcast
    linarith
  · exact hfall
  · -- `e < 0` and the test `t ≤ c * 2 ^ (-e)` certified the exponent
    push_neg at h1
    have hcast : ((t : Nat) : ℚ) ≤
        ((c * 2 ^ (-((bitLen c : Int) - (bitLen t : Int))).toNat : Nat) : ℚ) := by
      exact_mod_cast h3
    push_cast at hcast
    rw [← zpow_natCast (2:ℚ), Int.toNat_of_nonneg (by omega)] at hcast
    have hpos : (0:ℚ) < (2:ℚ) ^ (-((bitLen c : Int) - (bitLen t : Int))) :=
      zpow_pos (by norm_num) _
    rw [show (2:ℚ) ^ ((bitLen c : Int) - (bitLen t : Int)) =
        ((2:ℚ) ^ (-((bitLen c : Int) - (bitLen t : Int))))⁻¹ by rw [← zpow_neg, neg_neg]]
    rw [inv_mul_le_iff₀ hpos]
    nlinarith [hpos]
  · exact hfall

/-- In the `e ≤ 52` regime, `scalePair` represents `(c / t) * 2 ^ (52 - e)`
exactly. -/
theorem scalePair_div (c t : Nat) (ht : 0 < t) (e : Int) (he : e ≤ 52) :
    ((scalePair c t e).1 : ℚ) / ((scalePair c t e).2 : ℚ) = (c:ℚ) / t * (2:ℚ) ^ ((52:ℤ) - e) := by
  unfold scalePair
  rw [if_pos he]
  have hX : ((2 ^ ((52:ℤ) - e).toNat : ℕ) : ℚ) = (2:ℚ) ^ ((52:ℤ) - e) := by
    rw [Nat.cast_pow, Nat.cast_ofNat, ← zpow_natCast (2:ℚ), Int.toNat_of_nonneg (by omega)]
  push_cast
  rw [← hX]
  push_cast
  ring

/-- Dyadic values are nonnegative. -/
theorem Dyadic.toRat_nonneg (d : Dyadic) : 0 ≤ d.toRat := by
  unfold Dyadic.toRat
  positivity

/-- The rounded quotient overshoots `c / t` by at most half an ulp, which
for `c ≤ t` is at most `2 ^ (-53)`. -/
theorem flDiv_le (c t : Nat) (ht : 0 < t) (hct : c ≤ t) :
    (flDiv c t).toRat ≤ (c:ℚ) / t + (2:ℚ) ^ (-53 : ℤ) := by
  have ht' : (0:ℚ) < (t:ℚ) := by exact_mod_cast ht
  have hdivnn : (0:ℚ) ≤ (c:ℚ) / t := by positivity
  by_cases hc : c = 0
  · subst hc
    have h0 : flDiv 0 t = ⟨0, 0⟩ := by rw [flDiv, if_pos (Or.inl rfl)]
    have h0v : (Dyadic.mk 0 0).toRat = 0 := by simp [Dyadic.toRat]
    rw [h0, h0v]
    positivity
  · have hcpos : 0 < c := Nat.pos_of_ne_zero hc
    rw [flDiv, if_neg (by push_neg; omega)]
    dsimp only [Dyadic.toRat]
    have hone : (c:ℚ)/t ≤ 1 := by
      rw [div_le_one ht']
      exact_mod_cast hct
    have helee : (2:ℚ) ^ (qlog2 c t) ≤ 1 := le_trans (qlog2_le c t hcpos ht) hone
    have he0 : qlog2 c t ≤ 0 := by
      by_contra hpos
      push_neg at hpos
      have h2 : (2:ℚ) ^ (0:ℤ) < (2:ℚ) ^ (qlog2 c t) := zpow_lt_zpow_right₀ one_lt_two hpos
      rw [zpow_zero] at h2
      linarith
    have he52 : qlog2 c t ≤ 52 := by omega
    have hsp := scalePair_div c t ht (qlog2 c t) he52
    have hD : 0 < (scalePair c t (qlog2 c t)).2 := by
      rw [scalePair, if_pos he52]
      exact ht
    have hr := rne_le (scalePair c t (qlog2 c t)).1 (scalePair c t (qlog2 c t)).2 hD
    have hD' : (0:ℚ) < ((scalePair c t (qlog2 c t)).2 : ℚ) := by exact_mod_cast hD
    have hDnn : (0:ℚ) ≤ ((scalePair c t (qlog2 c t)).1 : ℚ) / (scalePair c t (qlog2 c t)).2 := by
      positivity
    have hXpos : (0:ℚ) < (2:ℚ) ^ (qlog2 c t - 52) := zpow_pos (by norm_num) _
    calc ((rne (scalePair c t (qlog2 c t)).1 (scalePair c t (qlog2 c t)).2 : ℕ) : ℚ) *
          (2:ℚ) ^ (qlog2 c t - 52)
        ≤ (((scalePair c t (qlog2 c t)).1 : ℚ) / (scalePair c t (qlog2 c t)).2 + 1/2) *
          (2:ℚ) ^ (qlog2 c t - 52) := mul_le_mul_of_nonneg_right hr hXpos.le
      _ = ((c:ℚ) / t * (2:ℚ) ^ ((52:ℤ) - qlog2 c t) + 1/2) * (2:ℚ) ^ (qlog2 c t - 52) := by
          rw [hsp]
      _ = (c:ℚ) / t * ((2:ℚ) ^ ((52:ℤ) - qlog2 c t) * (2:ℚ) ^ (qlog2 c t - 52)) +
          (2:ℚ) ^ (-1 : ℤ) * (2:ℚ) ^ (qlog2 c t - 52) := by
          rw [show ((2:ℚ))^(-1:ℤ) = 1/2 by norm_num]
          ring
      _ = (c:ℚ) / t + (2:ℚ) ^ (qlog2 c t - 53) := by
          rw [← zpow_add₀ (by norm_num : (2:ℚ) ≠ 0), ← zpow_add₀ (by norm_num : (2:ℚ) ≠ 0),
            show (52:ℤ) - qlog2 c t + (qlog2 c t - 52) = 0 by ring,
            show (-1:ℤ) + (qlog2 c t - 52) = qlog2 c t - 53 by ring,
            zpow_zero, mul_one]
      _ ≤ (c:ℚ) / t + (2:ℚ) ^ (-53 : ℤ) :=
          add_le_add_left (zpow_le_zpow_right₀ one_le_two (by omega)) _

/-- Rounding an exact product to 53 bits increases it by a factor of at
most `1 + 2 ^ (-53)`. -/
theorem flDyadic_le (m : Nat) (e : Int) :
    (flDyadic m e).toRat ≤ (m:ℚ) * (2:ℚ) ^ e * (1 + (2:ℚ) ^ (-53 : ℤ)) := by
  have hu : (0:ℚ) ≤ (2:ℚ) ^ (-53 : ℤ) := (zpow_pos (by norm_num : (0:ℚ) < 2) _).le
  have hval : (0:ℚ) ≤ (m:ℚ) * (2:ℚ) ^ e := by positivity
  rw [flDyadic]
  split_ifs with hb
  · dsimp only [Dyadic.toRat]
    nlinarith
  · dsimp only [Dyadic.toRat]
    push_neg at hb
    have hm0 : 0 < m := by
      rcases Nat.eq_zero_or_pos m with h | h
      · subst h
        simp [bitLen, bitLenFuel] at hb
      · exact h
    obtain ⟨hm1, _⟩ := bitLen_bounds m hm0
    have hs54 : 54 ≤ bitLen m := by omega
    have hD : 0 < 2 ^ (bitLen m - 53) := Nat.pos_pow_of_pos _ (by norm_num)
    have hr := rne_le m (2 ^ (bitLen m - 53)) hD
    have hcast : ((2 ^ (bitLen m - 53) : ℕ) : ℚ) = (2:ℚ) ^ ((bitLen m : ℤ) - 53) := by
      rw [Nat.cast_pow, Nat.cast_ofNat, ← zpow_natCast (2:ℚ),
        show ((bitLen m - 53 : ℕ) : ℤ) = (bitLen m : ℤ) - 53 by omega]
    have hm1Q : (2:ℚ) ^ ((bitLen m : ℤ) - 1) ≤ (m : ℚ) := by
      have h2 : ((2 ^ (bitLen m - 1) : ℕ) : ℚ) ≤ (m : ℚ) := by exact_mod_cast hm1
      rwa [Nat.cast_pow, Nat.cast_ofNat, ← zpow_natCast (2:ℚ),
        show ((bitLen m - 1 : ℕ) : ℤ) = (bitLen m : ℤ) - 1 by omega] at h2
    have hXpos : (0:ℚ) < (2:ℚ) ^ (e + ((bitLen m : ℤ) - 53)) := zpow_pos (by norm_num) _
    have hzne : (2:ℚ) ≠ 0 := by norm_num
    have hdiv : (m:ℚ) / ((2 ^ (bitLen m - 53) : ℕ) : ℚ) =
        (m:ℚ) * (2:ℚ) ^ ((53:ℤ) - bitLen m) := by
      rw [hcast, div_eq_mul_inv, ← zpow_neg, show -((bitLen m : ℤ) - 53) = (53:ℤ) - bitLen m
        by ring]
    have hA : (2:ℚ) ^ ((53:ℤ) - bitLen m) * (2:ℚ) ^ (e + ((bitLen m : ℤ) - 53)) = (2:ℚ) ^ e := by
      rw [← zpow_add₀ hzne]
      congr 1
      ring
    have hB : (1/2 : ℚ) * (2:ℚ) ^ (e + ((bitLen m : ℤ) - 53)) =
        (2:ℚ) ^ (e + ((bitLen m : ℤ) - 54)) := by
      rw [show (1/2:ℚ) = (2:ℚ) ^ (-1 : ℤ) by norm_num, ← zpow_add₀ hzne]
      congr 1
      ring
    have hC : (2:ℚ) ^ (e + ((bitLen m : ℤ) - 54)) =
        (2:ℚ) ^ ((bitLen m : ℤ) - 1) * ((2:ℚ) ^ e * (2:ℚ) ^ (-53 : ℤ)) := by
      rw [← zpow_add₀ hzne, ← zpow_add₀ hzne]
      congr 1
      ring
    have hmono := mul_le_mul_of_nonneg_right hm1Q
      (mul_nonneg (zpow_pos (by norm_num : (0:ℚ) < 2) e).le hu)
    calc ((rne m (2 ^ (bitLen m - 53)) : ℕ) : ℚ) * (2:ℚ) ^ (e + ((bitLen m : ℤ) - 53))
        ≤ ((m : ℚ) / ((2 ^ (bitLen m - 53) : ℕ) : ℚ) + 1/2) *
            (2:ℚ) ^ (e + ((bitLen m : ℤ) - 53)) := mul_le_mul_of_nonneg_right hr hXpos.le
      _ = (m : ℚ) * (2:ℚ) ^ e + (2:ℚ) ^ (e + ((bitLen m : ℤ) - 54)) := by
          rw [hdiv, add_mul, mul_assoc, hA, hB]
      _ ≤ (m : ℚ) * (2:ℚ) ^ e + (m : ℚ) * (2:ℚ) ^ e * (2:ℚ) ^ (-53 : ℤ) := by
          rw [hC]
          nlinarith [hmono]
      _ = (m:ℚ) * (2:ℚ) ^ e * (1 + (2:ℚ) ^ (-53 : ℤ)) := by ring

/-- Flooring a nonnegative dyadic never exceeds its value. -/
theorem dyadicFloor_le (d : Dyadic) : (dyadicFloor d : ℚ) ≤ d.toRat := by
  rw [dyadicFloor]
  split_ifs with h0
  · refine le_of_eq ?_
    dsimp only [Dyadic.toRat]
    push_cast
    rw [← zpow_natCast (2:ℚ) d.e.toNat, Int.toNat_of_nonneg h0]
  · push_neg at h0
    have hk : (((-d.e).toNat : ℕ) : ℤ) = -d.e := Int.toNat_of_nonneg (by omega)
    calc ((d.m / 2 ^ (-d.e).toNat : ℕ) : ℚ)
        ≤ (d.m : ℚ) / ((2 ^ (-d.e).toNat : ℕ) : ℚ) := Nat.cast_div_le
      _ = d.toRat := by
          dsimp only [Dyadic.toRat]
          rw [Nat.cast_pow, Nat.cast_ofNat, ← zpow_natCast (2:ℚ), hk, div_eq_mul_inv, ← zpow_neg,
            neg_neg]

/-- The float computation `int(c / t * 100)` never exceeds 100 when
`c ≤ t`. -/
theorem pyProgressInt_le_100 (c t : Nat) (ht : 0 < t) (hct : c ≤ t) :
    pyProgressInt c t ≤ 100 := by
  have ht' : (0:ℚ) < (t:ℚ) := by exact_mod_cast ht
  have hu53 : (2:ℚ) ^ (-53 : ℤ) = 1 / 9007199254740992 := by
    rw [show (-53 : ℤ) = -(53 : ℕ) by rfl, zpow_neg, zpow_natCast]
    norm_num
  have h1 := flDiv_le c t ht hct
  have hone : (c:ℚ)/t ≤ 1 := by
    rw [div_le_one ht']
    exact_mod_cast hct
  have h1' : (flDiv c t).toRat ≤ 1 + (2:ℚ) ^ (-53 : ℤ) :=
    le_trans h1 (add_le_add_right hone _)
  have h2 := flDyadic_le (100 * (flDiv c t).m) (flDiv c t).e
  have h3 : ((100 * (flDiv c t).m : ℕ) : ℚ) * (2:ℚ) ^ ((flDiv c t).e) =
      100 * (flDiv c t).toRat := by
    dsimp only [Dyadic.toRat]
    push_cast
    ring
  have hnn := Dyadic.toRat_nonneg (flDiv c t)
  have hub : (flDyadic (100 * (flDiv c t).m) (flDiv c t).e).toRat < 101 := by
    rw [h3] at h2
    rw [hu53] at h1' h2
    nlinarith
  have h4 := dyadicFloor_le (flDyadic (100 * (flDiv c t).m) (flDiv c t).e)
  have h5 : ((dyadicFloor (flDyadic (100 * (flDiv c t).m) (flDiv c t).e) : ℕ) : ℚ) < 101 :=
    lt_of_le_of_lt h4 hub
  have h6 : dyadicFloor (flDyadic (100 * (flDiv c t).m) (flDiv c t).e) < 101 := by
    exact_mod_cast h5
  rw [pyProgressInt]
  omega

/-- The topic-counting loop keeps `completed ≤ total`. -/
theorem topics_fold_le (topics : List Topic) :
    ∀ acc : Nat × Nat, acc.2 ≤ acc.1 →
      (topics.foldl (fun acc2 t => (acc2.1 + 1, if t.completed then acc2.2 + 1 else acc2.2))
        acc).2 ≤
      (topics.foldl (fun acc2 t => (acc2.1 + 1, if t.completed then acc2.2 + 1 else acc2.2))
        acc).1 := by
  induction topics with
  | nil => intro acc h; exact h
  | cons t rest ih =>
    intro acc h
    apply ih
    by_cases hc : t.completed <;> simp [hc] <;> omega

/-- Over every module, the counters satisfy `completed ≤ total`. -/
theorem progressCounts_le (meta : Course) :
    (progressCounts meta).2 ≤ (progressCounts meta).1 := by
  rw [progressCounts]
  generalize meta.modules = mods
  suffices h : ∀ acc : Nat × Nat, acc.2 ≤ acc.1 →
      (mods.foldl (fun acc m =>
        m.topics.foldl (fun acc2 t => (acc2.1 + 1, if t.completed then acc2.2 + 1 else acc2.2))
          acc) acc).2 ≤
      (mods.foldl (fun acc m =>
        m.topics.foldl (fun acc2 t => (acc2.1 + 1, if t.completed then acc2.2 + 1 else acc2.2))
          acc) acc).1 from h (0, 0) le_rfl
  induction mods with
  | nil => intro acc h; exact h
  | cons m rest ih =>
    intro acc h
    exact ih _ (topics_fold_le m.topics acc h)

/-- Claim C4 (amended): `progress(Course)` equals the binary64 evaluation
`int(completed / total * 100)`, which is `0` for a course with zero topics
and always lies in `[0, 100]`; it can however be one less than the exact
`floor(completed / total * 100)` of the claim (e.g. 29 completed of 100
total yields 28, not 29 — see the counterexample). -/
theorem calculate_progress_in_range (meta : Course) :
    courseProgress meta ≤ 100 ∧
    ((progressCounts meta).1 = 0 → courseProgress meta = 0) ∧
    0 ≤ courseProgress meta := by
  refine ⟨?_, ?_, Nat.zero_le _⟩
  · rw [courseProgress]
    split_ifs with h
    · exact pyProgressInt_le_100 _ _ h (progressCounts_le meta)
    · omega
  · intro h0
    rw [courseProgress]
    rw [if_neg (by omega)]

/-- Witness for C4 (amended): evaluated on the concrete scenario course
(one topic, completed) and on an empty course. -/
theorem calculate_progress_in_range_witness :
    courseProgress course29of100 ≤ 100 ∧
    courseProgress ⟨1, "C", "N", "c", 0, []⟩ = 0 :=
  ⟨(calculate_progress_in_range course29of100).1,
   (calculate_progress_in_range ⟨1, "C", "N", "c", 0, []⟩).2.1 (by decide)⟩

end CourseMap
